import Mathlib

/-!
Verification development for the NanoVNASaver sweep pipeline
(`src/NanoVNASaver/NanoVNASaver.py`).

The Python code is shallowly embedded: pure helpers become Lean functions,
stateful methods become explicit state transformers on `AppState`, strings
become `List Char` or `String`, Python `None` becomes `Option.none`, and a
raised exception becomes an explicit outcome constructor.  Floating point
display quantities (VSWR, gain, phase) are modelled as integers: every
property proved here only uses their linear order and subtraction.
-/

/-! ## Data model -/

/-- One sweep sample (`RFTools.Datapoint`): the displayed quantities of a
point.  `freq` is the frequency; `vswr`, `gain` and `phase` stand for the
derived display values, modelled as integers since only order and
subtraction are used by the embedded code. -/
structure Datapoint where
  freq : Int
  vswr : Int
  gain : Int
  phase : Int
deriving DecidableEq, Repr

/-! ## Device-configuration parser (`parse_four_inputs`, lines 779-795) -/

/-- Python `str.strip()` whitespace test, restricted to the ASCII whitespace
characters. -/
def isPySpace (c : Char) : Bool :=
  c == ' ' || c == '\t' || c == '\n' || c == '\r' || c == '\x0b' || c == '\x0c'

/-- Python `input_str.strip()`: drop the maximal whitespace prefix and
suffix. -/
def pyStrip (l : List Char) : List Char :=
  ((l.dropWhile isPySpace).reverse.dropWhile isPySpace).reverse

/-- Python `input_str.replace(" ", "")`: remove every space character. -/
def removeSpaces (l : List Char) : List Char :=
  l.filter (fun c => c != ' ')

/-- The normalisation `input_str.strip().replace(" ", "")` performed at the
top of `parse_four_inputs` (line 780). -/
def normalizeCfg (l : List Char) : List Char :=
  removeSpaces (pyStrip l)

/-- One bracket group of the regular expression
`\[(\d\x7b4\x7d)\]...`: a literal `[`, exactly four digit characters
(`\d`, modelled as ASCII digits), and a literal `]`.  Returns the captured
group and the rest of the input. -/
def matchGroup : List Char → Option (List Char × List Char)
  | '[' :: a :: b :: c :: d :: ']' :: rest =>
    if a.isDigit && b.isDigit && c.isDigit && d.isDigit then
      some ([a, b, c, d], rest)
    else
      none
  | _ => none

/-- `re.fullmatch` of the four-group pattern (line 781): four bracket
groups and nothing else.  Returns the four captured digit groups. -/
def fullmatch4 (l : List Char) : Option (List (List Char)) :=
  match matchGroup l with
  | none => none
  | some (g1, r1) =>
    match matchGroup r1 with
    | none => none
    | some (g2, r2) =>
      match matchGroup r2 with
      | none => none
      | some (g3, r3) =>
        match matchGroup r3 with
        | none => none
        | some (g4, r4) => if r4.isEmpty then some [g1, g2, g3, g4] else none

/-- The value of one character for Python `int(bits, 2)`: only `0` and `1`
are accepted, anything else raises `ValueError` (`none`). -/
def int2digit (c : Char) : Option Nat :=
  if c = '0' then some 0 else if c = '1' then some 1 else none

/-- Python `int(bits, 2)` on a digit string: binary value, or `none` when a
character is not a binary digit (the `ValueError` case). -/
def int2 : List Char → Option Nat
  | [] => some 0
  | c :: rest =>
    match int2digit c with
    | none => none
    | some d =>
      match int2 rest with
      | none => none
      | some v => some (d * 2 ^ rest.length + v)

/-- The byte computed for one accepted group (lines 790-792):
`complement = (~nibble) & 0x0F` (Python two's complement, embedded over
`Int`), then `byte = (nibble << 4) | complement`. -/
def pyNibbleByte (nibble : Nat) : Nat :=
  let complement := ((-(nibble : Int) - 1).emod 16).toNat
  (nibble <<< 4) ||| complement

/-- The `for bits in bitgroups` loop of lines 789-793: convert each group
with `int(bits, 2)` and append the computed byte; `none` models the
`ValueError` raised on the first non-binary group. -/
def bytesOfGroups : List (List Char) → Option (List Nat)
  | [] => some []
  | g :: gs =>
    match int2 g with
    | none => none
    | some nibble =>
      match bytesOfGroups gs with
      | none => none
      | some rest => some (pyNibbleByte nibble :: rest)

/-- Result of `parse_four_inputs`: the returned byte list, the `None`
return after the printed diagnostic, or an escaping `ValueError` from
`int(bits, 2)`. -/
inductive ParseOutcome where
  | ret (bytes : List Nat)
  | retNone
  | valueError
deriving DecidableEq, Repr

/-- `parse_four_inputs` (lines 779-795): normalise, match the four-group
pattern, and convert each group to its byte. -/
def parse_four_inputs (l : List Char) : ParseOutcome :=
  match fullmatch4 (normalizeCfg l) with
  | none => ParseOutcome.retNone
  | some groups =>
    match bytesOfGroups groups with
    | none => ParseOutcome.valueError
    | some bytes => ParseOutcome.ret bytes

/-! ## `configure_pa` (lines 493-513) and the expander writes -/

/-- `I2C_ADDRESSES` (line 748). -/
def I2C_ADDRESSES : List Nat := [0x20, 0x21, 0x22, 0x23]

/-- The bus writes performed by `zip(expanders, values)` with
`PCF8574.write_all` (lines 765-774): an unavailable expander is skipped,
and the written value is masked with `0xFF`.  `avail` is the result of the
initial presence check of each expander. -/
def expanderWrites (avail : List Bool) (values : List Nat) : List (Nat × Nat) :=
  ((I2C_ADDRESSES.zip avail).zip values).filterMap
    (fun p => if p.1.2 then some (p.1.1, p.2 % 256) else none)

/-- Result of `configure_pa`: either the method returns normally after the
listed bus writes, or an exception escapes after the listed bus writes. -/
inductive CfgOutcome where
  | completed (writes : List (Nat × Nat))
  | raised (writes : List (Nat × Nat))
deriving DecidableEq, Repr

/-- `NanoVNASaver.configure_pa` (lines 493-513).  `avail` is the presence
of each of the four expanders, `clear` is `args.clear` (an explicit
parameter, following the design note of the specification).  When the
parse returns `None`, line 509 evaluates `result[0]` before the
`if result:` guard, so a `TypeError` escapes; a `ValueError` from
`int(bits, 2)` escapes as well.  In both cases no bus write has been
performed. -/
def configure_pa (avail : List Bool) (clear : Bool) (cfg : List Char) : CfgOutcome :=
  if clear then
    CfgOutcome.completed (expanderWrites avail (List.replicate 4 0xFF))
  else
    match parse_four_inputs cfg with
    | ParseOutcome.valueError => CfgOutcome.raised []
    | ParseOutcome.retNone => CfgOutcome.raised []
    | ParseOutcome.ret bytes => CfgOutcome.completed (expanderWrites avail bytes)

/-! ## Application state and the sweep/reference operations -/

/-- The state touched by `saveData`, `setReference`, `resetReference` and
`updateTitle`.  `data_s11`/`data_s21` are the live sweep buffer
(`self.data`, always holding lists), `ref_s11`/`ref_s21` the reference
buffer (`self.ref_data`; `ref_s21` may hold Python `None` after
`setReference` with an explicit `s11` and no `s21`).  `charts_ref_s11`
and `charts_ref_s21` stand for the reference data last pushed to the S11
and S21 chart consumers (`none` after `resetReference`). -/
structure AppState where
  data_s11 : List Datapoint
  data_s21 : List Datapoint
  ref_s11 : List Datapoint
  ref_s21 : Option (List Datapoint)
  sweepSource : String
  referenceSource : String
  baseTitle : String
  windowTitle : String
  charts_ref_s11 : Option (List Datapoint)
  charts_ref_s21 : Option (List Datapoint)
  btnResetDisabled : Bool
deriving DecidableEq, Repr

/-- The window-title computation of `updateTitle` (lines 636-650).  The
`insert` string always starts with `(`, so the final `insert or ''` is
`insert` itself. -/
def computeTitle (st : AppState) : String :=
  let insert := "("
    ++ (if st.sweepSource != "" then
          "Sweep: " ++ st.sweepSource ++ " @ "
            ++ toString st.data_s11.length ++ " points"
            ++ (if st.referenceSource != "" then ", " else "")
        else "")
    ++ (if st.referenceSource != "" then
          "Reference: " ++ st.referenceSource ++ " @ "
            ++ toString st.ref_s11.length ++ " points"
        else "")
    ++ ")"
  st.baseTitle ++ " " ++ insert

/-- `NanoVNASaver.updateTitle` (lines 636-650): recompute and store the
window title. -/
def updateTitle (st : AppState) : AppState :=
  { st with windowTitle := computeTitle st }

/-- A single invocation of `saveData`: its data arguments together with the
external inputs read during the call (the local timestamp and the sweep
properties name). -/
structure WriteReq where
  data : List Datapoint
  data21 : List Datapoint
  source : Option String
  now : String
  sweepName : String
deriving DecidableEq, Repr

/-- `NanoVNASaver.saveData` (lines 515-526).  `corr` embeds the external
`corr_att_data` collaborator and `attPos` the test `self.s21att > 0`;
`w.now` is the `strftime`/`localtime` value and `w.sweepName` the external
`self.sweep.properties.name` (empty when unset, Python falsy). -/
def saveData (corr : List Datapoint → List Datapoint) (attPos : Bool)
    (st : AppState) (w : WriteReq) : AppState :=
  let st := { st with
    data_s11 := w.data,
    data_s21 := if attPos then corr w.data21 else w.data21 }
  match w.source with
  | some s => { st with sweepSource := s }
  | none =>
    let name := if w.sweepName = "" then "nanovna" else w.sweepName
    { st with sweepSource := name ++ "_" ++ w.now }

/-- A sequence of later `saveData` calls applied in order. -/
def applyWrites (corr : List Datapoint → List Datapoint) (attPos : Bool)
    (st : AppState) (ws : List WriteReq) : AppState :=
  ws.foldl (saveData corr attPos) st

/-- Python truthiness of the `s11` argument of `setReference`: falsy when
`None` or an empty sequence. -/
def pyFalsy : Option (List Datapoint) → Bool
  | none => true
  | some l => l.isEmpty

/-- `NanoVNASaver.setReference` (lines 614-634).  When `s11` is falsy both
local variables are rebound to copies of the live buffer (discarding any
passed `s21`); otherwise the passed values are stored as given, so a call
with a non-empty `s11` and no `s21` stores Python `None` as the S21
reference.  `referenceSource` becomes `source or self.sweepSource`
(truthiness: an empty string also falls back). -/
def setReference (st : AppState) (s11 s21 : Option (List Datapoint))
    (source : Option String) : AppState :=
  let s11v : List Datapoint :=
    if pyFalsy s11 then st.data_s11 else s11.getD []
  let s21v : Option (List Datapoint) :=
    if pyFalsy s11 then some st.data_s21 else s21
  let st := { st with
    ref_s11 := s11v,
    charts_ref_s11 := some s11v,
    ref_s21 := s21v,
    charts_ref_s21 := s21v,
    btnResetDisabled := false,
    referenceSource :=
      match source with
      | some s => if s = "" then st.sweepSource else s
      | none => st.sweepSource }
  updateTitle st

/-- `NanoVNASaver.resetReference` (lines 652-658): replace `ref_data` with
a fresh `Touchstone()` (modelled from the spec: a fresh instance holds
empty sequences), clear the reference source, recompute the title, tell
every subscribing chart to drop its reference overlay, and disable the
reset affordance. -/
def resetReference (st : AppState) : AppState :=
  let st := { st with
    ref_s11 := [],
    ref_s21 := some [],
    referenceSource := "" }
  let st := updateTitle st
  { st with
    charts_ref_s11 := none,
    charts_ref_s21 := none,
    btnResetDisabled := true }

/-! ## Min-VSWR selection (`dataUpdated`, lines 579-585) -/

/-- The body of the Python `min` loop: keep the current best, replace it
only when the key is strictly smaller. -/
def pyminStep {α : Type} (key : α → Int) (best y : α) : α :=
  if key y < key best then y else best

/-- Python `min(iterable, key=k)`: fold keeping the current best, replacing
it only on a strictly smaller key, so the first minimal element of the
sequence is returned; `none` on an empty sequence (where Python raises and
the caller must not invoke it). -/
def pymin_by {α : Type} (key : α → Int) : List α → Option α
  | [] => none
  | x :: xs => some (xs.foldl (pyminStep key) x)

/-- `min(s11, key=lambda data: data.vswr)` of line 580: the point shown in
the min-VSWR display. -/
def minVSWR (l : List Datapoint) : Option Datapoint :=
  pymin_by (fun d => d.vswr) l

/-! ## Delta-marker resolution (`markerUpdated`, lines 528-556) -/

/-- A live marker as `markerUpdated` uses it: its resolved location index
and its displayed labels.  Modelled from the spec: `Marker.Widget` is an
external module; the labels of a resolved marker are the displayed fields
of the datapoint at its location. -/
structure MarkerW where
  location : Nat
  labels : Datapoint
deriving DecidableEq, Repr

/-- Python truthiness of `self.ref_data` on line 539.  Modelled from the
spec: `Touchstone` is an external module and absence of a reference is an
explicit no-data state, so the object is truthy exactly when it holds
sweep points. -/
def refTruthy (st : AppState) : Bool :=
  !st.ref_s11.isEmpty

/-- Labels of the synthetic `Marker("Reference")` of lines 540-543:
positioned at the first live marker's location and recomputed against the
reference data.  Modelled from the spec: `updateLabels` displays the
fields of the reference datapoint at the location (blank fields when the
location is out of range). -/
def refMarkerLabels (st : AppState) (loc : Nat) : Datapoint :=
  (st.ref_s11[loc]?).getD ⟨0, 0, 0, 0⟩

/-- The fields displayed by `DeltaMarker.updateLabels`.  Modelled from the
spec: every displayed field is operand2's field minus operand1's field,
each subtracted independently in its own unit. -/
def deltaLabels (op1 op2 : Datapoint) : Datapoint :=
  ⟨op2.freq - op1.freq, op2.vswr - op1.vswr,
    op2.gain - op1.gain, op2.phase - op1.phase⟩

/-- Outcome of the delta-marker part of `markerUpdated` (lines 535-556):
the block is skipped while the delta layout is hidden; `blank` is the
logged no-second-operand state that leaves the display blank;
`indexError` models the `IndexError` raised by `self.markers[0]` on an
empty marker list; `delta` carries the displayed difference. -/
inductive DeltaOutcome where
  | skipped
  | blank
  | indexError
  | delta (d : Datapoint)
deriving DecidableEq, Repr

/-- The delta-marker resolution of `markerUpdated` (lines 535-556).
`hidden` is `self.delta_marker_layout.isHidden()`, `marker_ref` the
reference-comparison mode, `markers` the live marker list (its length
models `Marker.count()`). -/
def markerUpdated_delta (st : AppState) (hidden marker_ref : Bool)
    (markers : List MarkerW) : DeltaOutcome :=
  if hidden then DeltaOutcome.skipped
  else
    match markers with
    | [] => DeltaOutcome.indexError
    | m1 :: rest =>
      let m2 : Option MarkerW :=
        if marker_ref then
          if refTruthy st then
            some { location := m1.location,
                   labels := refMarkerLabels st m1.location }
          else none
        else
          match rest with
          | m2 :: _ => some m2
          | [] => none
      match m2 with
      | none => DeltaOutcome.blank
      | some m2 => DeltaOutcome.delta (deltaLabels m1.labels m2.labels)

/-! ## Lock-scope traces (`saveData`, `markerUpdated`, `dataUpdated`,
`setReference`) -/

/-- The kinds of steps executed by the pipeline methods, for the
lock-scope analysis: buffer copy/replace, marker consumer updates, chart
consumer updates, and the remaining label/progress/TDR/signal work. -/
inductive Act where
  | bufferRead
  | bufferWrite
  | markerOp
  | chartOp
  | otherOp
deriving DecidableEq, Repr

/-- A consumer-update step in the sense of the spec: a chart or marker
update operation. -/
def Act.isConsumerOp : Act → Bool
  | Act.markerOp => true
  | Act.chartOp => true
  | _ => false

/-- Steps of `saveData` (lines 515-526) paired with whether `dataLock` is
held: the buffer replace happens inside `with self.dataLock`, the source
label update after it. -/
def saveData_trace : List (Act × Bool) :=
  [(Act.bufferWrite, true), (Act.otherOp, false)]

/-- Steps of `markerUpdated` (lines 528-556) with `nCharts` subscribing
charts and the delta block of lines 535-556 summarised as one unlocked
step: the marker's `findLocation`/`resetLabels`/`updateLabels` calls and
the whole chart-update loop all execute inside `with self.dataLock`. -/
def markerUpdated_trace (nCharts : Nat) : List (Act × Bool) :=
  [(Act.markerOp, true), (Act.markerOp, true), (Act.markerOp, true)]
    ++ List.replicate nCharts (Act.chartOp, true)
    ++ [(Act.otherOp, false)]

/-- Steps of `dataUpdated` (lines 558-606): the buffer copy is the only
step inside `with self.dataLock`; markers, charts, progress bar, TDR,
labels, title and the data-available signal all run after the lock is
released. -/
def dataUpdated_trace (nMarkers nS11 nS21 nComb : Nat) : List (Act × Bool) :=
  (Act.bufferRead, true)
    :: (List.replicate nMarkers (Act.markerOp, false)
      ++ List.replicate nS11 (Act.chartOp, false)
      ++ List.replicate nS21 (Act.chartOp, false)
      ++ List.replicate nComb (Act.chartOp, false)
      ++ [(Act.otherOp, false), (Act.otherOp, false), (Act.otherOp, false),
          (Act.otherOp, false)])

/-- Steps of `setReference` (lines 614-634): when the `s11` argument is
falsy the buffer snapshot is taken inside `with self.dataLock`; every
chart `setReference` push and the title work run without the lock. -/
def setReference_trace (falsy : Bool) (nS11 nS21 nComb : Nat) : List (Act × Bool) :=
  (if falsy then [(Act.bufferRead, true)] else [])
    ++ List.replicate nS11 (Act.chartOp, false)
    ++ List.replicate nS21 (Act.chartOp, false)
    ++ List.replicate nComb (Act.chartOp, false)
    ++ [(Act.otherOp, false), (Act.otherOp, false)]

/-! ## Space insertion, helper step function, example states -/

/-- `spacedVersionB l l'` holds when `l'` is `l` with zero or more space
characters inserted at arbitrary positions: each step either keeps the
next character of `l` or inserts one `' '`. -/
def spacedVersionB : List Char → List Char → Bool
  | [], [] => true
  | _ :: _, [] => false
  | l, c :: l' =>
    (match l with
     | c' :: t => c' == c && spacedVersionB t l'
     | [] => false)
    || (c == ' ' && spacedVersionB l l')

/-- An `AppState` with empty buffers and no reference, as after start-up. -/
def st0 : AppState :=
  { data_s11 := [], data_s21 := [], ref_s11 := [], ref_s21 := some [],
    sweepSource := "", referenceSource := "", baseTitle := "NanoVNA Saver",
    windowTitle := "", charts_ref_s11 := none, charts_ref_s21 := none,
    btnResetDisabled := true }

/-- An `AppState` holding one sweep point, used by the concrete witnesses. -/
def stEx : AppState :=
  { st0 with
    data_s11 := [⟨10, 15, -30, 5⟩],
    data_s21 := [⟨10, 1, 2, 3⟩],
    sweepSource := "sweep1" }

/-! ## Helper lemmas: parser -/

theorem int2digit_le (c : Char) (d : Nat) (h : int2digit c = some d) : d ≤ 1 := by
  unfold int2digit at h
  split at h
  · cases h; exact Nat.zero_le 1
  · split at h
    · cases h; exact Nat.le_refl 1
    · cases h

theorem int2_lt (g : List Char) (n : Nat) (h : int2 g = some n) :
    n < 2 ^ g.length := by
  induction g generalizing n with
  | nil =>
    unfold int2 at h
    cases h
    exact Nat.zero_lt_one
  | cons c rest ih =>
    unfold int2 at h
    cases hd : int2digit c with
    | none => rw [hd] at h; cases h
    | some d =>
      rw [hd] at h
      cases hv : int2 rest with
      | none => rw [hv] at h; cases h
      | some v =>
        rw [hv] at h
        cases h
        have hvlt : v < 2 ^ rest.length := ih v hv
        have hd1 : d ≤ 1 := int2digit_le c d hd
        calc d * 2 ^ rest.length + v
            < d * 2 ^ rest.length + 2 ^ rest.length := by omega
          _ ≤ 1 * 2 ^ rest.length + 2 ^ rest.length := by
              have := Nat.mul_le_mul_right (2 ^ rest.length) hd1
              omega
          _ = 2 ^ (rest.length + 1) := by ring
          _ = 2 ^ (c :: rest).length := by simp

theorem matchGroup_length (l : List Char) (g r : List Char)
    (h : matchGroup l = some (g, r)) : g.length = 4 := by
  unfold matchGroup at h
  split at h
  · split at h
    · cases h; rfl
    · cases h
  · cases h

theorem fullmatch4_groups (l : List Char) (gs : List (List Char))
    (h : fullmatch4 l = some gs) : ∀ g ∈ gs, g.length = 4 := by
  unfold fullmatch4 at h
  split at h
  · cases h
  · rename_i p1 g1 r1 h1
    split at h
    · cases h
    · rename_i p2 g2 r2 h2
      split at h
      · cases h
      · rename_i p3 g3 r3 h3
        split at h
        · cases h
        · rename_i p4 g4 r4 h4
          split at h
          · cases h
            intro g hg
            simp only [List.mem_cons, List.not_mem_nil, or_false] at hg
            rcases hg with rfl | rfl | rfl | rfl
            · exact matchGroup_length l g r1 h1
            · exact matchGroup_length r1 g r2 h2
            · exact matchGroup_length r2 g r3 h3
            · exact matchGroup_length r3 g r4 h4
          · cases h

theorem bytesOfGroups_spec (gs : List (List Char)) (bytes : List Nat)
    (hlen : ∀ g ∈ gs, g.length = 4) (h : bytesOfGroups gs = some bytes) :
    ∃ ns : List Nat, (∀ n ∈ ns, n < 16) ∧ bytes = ns.map pyNibbleByte := by
  induction gs generalizing bytes with
  | nil =>
    unfold bytesOfGroups at h
    cases h
    exact ⟨[], by simp, rfl⟩
  | cons g gs ih =>
    unfold bytesOfGroups at h
    cases hn : int2 g with
    | none => rw [hn] at h; cases h
    | some nibble =>
      rw [hn] at h
      cases hr : bytesOfGroups gs with
      | none => rw [hr] at h; cases h
      | some rest =>
        rw [hr] at h
        cases h
        obtain ⟨ns, hlt, hmap⟩ :=
          ih rest (fun g' hg' => hlen g' (List.mem_cons_of_mem g hg')) hr
        refine ⟨nibble :: ns, ?_, by simp [hmap]⟩
        intro n hn'
        rcases List.mem_cons.mp hn' with rfl | hmem
        · have := int2_lt g n hn
          rw [hlen g (List.mem_cons_self g gs)] at this
          exact this
        · exact hlt n hmem

theorem pyNibbleByte_eq (n : Nat) (h : n < 16) :
    pyNibbleByte n = (n <<< 4) ||| (15 - n) ∧ pyNibbleByte n = 16 * n + (15 - n) := by
  have key : ∀ m : Nat, m < 16 →
      pyNibbleByte m = (m <<< 4) ||| (15 - m) ∧ pyNibbleByte m = 16 * m + (15 - m) := by
    decide
  exact key n h

/-! ## Claim C1 -/

/-- C1: the claim says every malformed device-configuration string (missing
a bracket group or containing a non-binary character) is rejected with a
diagnostic and no escaping exception.  The code disagrees: the pattern
`\d` accepts the digits 2-9, so `"[0002][0000][0000][0000]"` passes the
regular expression and `int(bits, 2)` raises an escaping `ValueError`
with no diagnostic; and for a regex-rejected input such as
`"[0000][0000][0000]"` (a missing group) `configure_pa` evaluates
`result[0]` on `None` before its `if result:` guard, raising `TypeError`.
In both cases zero expander writes are performed, as this evaluation also
shows. -/
theorem c1_malformed_cfg_evaluation :
    parse_four_inputs ("[0002][0000][0000][0000]".data) = ParseOutcome.valueError
  ∧ configure_pa [true, true, true, true] false ("[0002][0000][0000][0000]".data)
      = CfgOutcome.raised []
  ∧ parse_four_inputs ("[0000][0000][0000]".data) = ParseOutcome.retNone
  ∧ configure_pa [true, true, true, true] false ("[0000][0000][0000]".data)
      = CfgOutcome.raised [] := by
  decide

/-! ## Claim C6 -/

/-- C6: every byte returned by an accepted configuration parse is
`(nibble << 4) | (~nibble & 0xF)` for a nibble below 16, i.e.
`16 * nibble + (15 - nibble)` with the low nibble the bitwise complement
of the high nibble; the group `0101` of the sample input yields byte
`0x5A`; and `configure_pa` writes exactly these bytes to the available
expanders. -/
theorem c6_byte_encoding (cfg : List Char) (bytes : List Nat)
    (h : parse_four_inputs cfg = ParseOutcome.ret bytes) :
    (∃ ns : List Nat, (∀ n ∈ ns, n < 16) ∧ bytes = ns.map pyNibbleByte
      ∧ ∀ n ∈ ns, pyNibbleByte n = (n <<< 4) ||| (15 - n)
        ∧ pyNibbleByte n = 16 * n + (15 - n))
  ∧ parse_four_inputs ("[0101][1100][0011][1010]".data)
      = ParseOutcome.ret [0x5A, 0xC3, 0x3C, 0xA5]
  ∧ (∀ avail, configure_pa avail false cfg
      = CfgOutcome.completed (expanderWrites avail bytes)) := by
  refine ⟨?_, by decide, ?_⟩
  · unfold parse_four_inputs at h
    split at h
    · cases h
    · rename_i gs hf
      split at h
      · cases h
      · rename_i bs hb
        cases h
        obtain ⟨ns, hlt, hmap⟩ :=
          bytesOfGroups_spec gs bytes (fullmatch4_groups _ _ hf) hb
        exact ⟨ns, hlt, hmap, fun n hn => pyNibbleByte_eq n (hlt n hn)⟩
  · intro avail
    unfold configure_pa
    rw [h]
    rfl

/-- Concrete witness for C6 on the specification's sample input. -/
theorem c6_byte_encoding_witness :
    parse_four_inputs ("[0101][1100][0011][1010]".data)
      = ParseOutcome.ret [0x5A, 0xC3, 0x3C, 0xA5]
  ∧ ((∃ ns : List Nat, (∀ n ∈ ns, n < 16)
        ∧ [0x5A, 0xC3, 0x3C, 0xA5] = ns.map pyNibbleByte
        ∧ ∀ n ∈ ns, pyNibbleByte n = (n <<< 4) ||| (15 - n)
          ∧ pyNibbleByte n = 16 * n + (15 - n))
    ∧ parse_four_inputs ("[0101][1100][0011][1010]".data)
        = ParseOutcome.ret [0x5A, 0xC3, 0x3C, 0xA5]
    ∧ (∀ avail, configure_pa avail false ("[0101][1100][0011][1010]".data)
        = CfgOutcome.completed (expanderWrites avail [0x5A, 0xC3, 0x3C, 0xA5]))) :=
  ⟨by decide, c6_byte_encoding _ _ (by decide)⟩

/-! ## Helper lemma: Python `min` with a key -/

theorem foldl_pyminStep_spec {α : Type} (key : α → Int) (xs : List α) (x : α) :
    (key (xs.foldl (pyminStep key) x) ≤ key x
      ∧ ∀ y ∈ xs, key (xs.foldl (pyminStep key) x) ≤ key y)
    ∧ (xs.foldl (pyminStep key) x = x
      ∨ ∃ l₁ l₂, xs = l₁ ++ xs.foldl (pyminStep key) x :: l₂
          ∧ key (xs.foldl (pyminStep key) x) < key x
          ∧ ∀ y ∈ l₁, key (xs.foldl (pyminStep key) x) < key y) := by
  induction xs generalizing x with
  | nil =>
    exact ⟨⟨Int.le_refl _, by simp⟩, Or.inl rfl⟩
  | cons y ys ih =>
    rw [List.foldl_cons]
    by_cases hlt : key y < key x
    · have hstep : pyminStep key x y = y := by
        unfold pyminStep
        rw [if_pos hlt]
      rw [hstep]
      obtain ⟨⟨hbx, hball⟩, hpos⟩ := ih y
      constructor
      · constructor
        · exact Int.le_of_lt (Int.lt_of_le_of_lt hbx hlt)
        · intro z hz
          rcases List.mem_cons.mp hz with rfl | hmem
          · exact hbx
          · exact hball z hmem
      · rcases hpos with heq | ⟨l₁, l₂, hsplit, hly, hfirst⟩
        · refine Or.inr ⟨[], ys, ?_, ?_, by simp⟩
          · rw [heq]
            rfl
          · rw [heq]
            exact hlt
        · refine Or.inr ⟨y :: l₁, l₂, by rw [List.cons_append]; exact congrArg _ hsplit,
            Int.lt_trans hly hlt, ?_⟩
          intro z hz
          rcases List.mem_cons.mp hz with rfl | hmem
          · exact hly
          · exact hfirst z hmem
    · have hstep : pyminStep key x y = x := by
        unfold pyminStep
        rw [if_neg hlt]
      rw [hstep]
      have hxy : key x ≤ key y := Int.not_lt.mp hlt
      obtain ⟨⟨hbx, hball⟩, hpos⟩ := ih x
      constructor
      · constructor
        · exact hbx
        · intro z hz
          rcases List.mem_cons.mp hz with rfl | hmem
          · exact Int.le_trans hbx hxy
          · exact hball z hmem
      · rcases hpos with heq | ⟨l₁, l₂, hsplit, hlx, hfirst⟩
        · exact Or.inl heq
        · refine Or.inr ⟨y :: l₁, l₂, by rw [List.cons_append]; exact congrArg _ hsplit,
            hlx, ?_⟩
          intro z hz
          rcases List.mem_cons.mp hz with rfl | hmem
          · exact Int.lt_of_lt_of_le hlx hxy
          · exact hfirst z hmem

/-! ## Claim C2 -/

/-- C2: on a non-empty, frequency-sorted S11 sweep, the point selected by
`min(s11, key=lambda data: data.vswr)` has VSWR at most that of every
point of the sweep; it is the first element of the sequence attaining the
minimum (every earlier point has strictly larger VSWR), hence among the
points attaining the minimum it is the one of lowest frequency. -/
theorem c2_min_vswr (x : Datapoint) (xs : List Datapoint)
    (hsort : List.Pairwise (fun a b => a.freq ≤ b.freq) (x :: xs)) :
    ∃ m, minVSWR (x :: xs) = some m
      ∧ (∀ p ∈ x :: xs, m.vswr ≤ p.vswr)
      ∧ (∃ l₁ l₂, x :: xs = l₁ ++ m :: l₂ ∧ ∀ p ∈ l₁, m.vswr < p.vswr)
      ∧ (∀ p ∈ x :: xs, p.vswr = m.vswr → m.freq ≤ p.freq) := by
  obtain ⟨⟨hbx, hball⟩, hpos⟩ := foldl_pyminStep_spec (fun d => d.vswr) xs x
  have hsplit : ∃ l₁ l₂, x :: xs = l₁ ++ xs.foldl (pyminStep fun d => d.vswr) x :: l₂
      ∧ ∀ p ∈ l₁, (xs.foldl (pyminStep fun d => d.vswr) x).vswr < p.vswr := by
    rcases hpos with heq | ⟨l₁, l₂, hsp, hlt, hfirst⟩
    · refine ⟨[], xs, ?_, by simp⟩
      rw [heq]
      rfl
    · refine ⟨x :: l₁, l₂, by rw [List.cons_append]; exact congrArg _ hsp, ?_⟩
      intro p hp
      rcases List.mem_cons.mp hp with rfl | hmem
      · exact hlt
      · exact hfirst p hmem
  refine ⟨xs.foldl (pyminStep fun d => d.vswr) x, rfl, ?_, hsplit, ?_⟩
  · intro p hp
    rcases List.mem_cons.mp hp with rfl | hmem
    · exact hbx
    · exact hball p hmem
  · obtain ⟨l₁, l₂, hsp, hfirst⟩ := hsplit
    intro p hp hpv
    rw [hsp] at hp hsort
    rcases List.mem_append.mp hp with hmem | hmem
    · exact absurd hpv (by have := hfirst p hmem; omega)
    · rcases List.mem_cons.mp hmem with rfl | hmem
      · exact Int.le_refl _
      · have := (List.pairwise_append.mp hsort).2.1
        exact (List.pairwise_cons.mp this).1 p hmem

/-- Concrete witness for C2 on the specification's sample sweep
(1 MHz / VSWR 1.20, 2 MHz / VSWR 1.05, 3 MHz / VSWR 3.00, with VSWR
scaled by 100). -/
theorem c2_min_vswr_witness :
    List.Pairwise (fun a b => a.freq ≤ b.freq)
      [(⟨1000000, 120, 0, 0⟩ : Datapoint), ⟨2000000, 105, 0, 0⟩, ⟨3000000, 300, 0, 0⟩]
  ∧ (∃ m, minVSWR [(⟨1000000, 120, 0, 0⟩ : Datapoint), ⟨2000000, 105, 0, 0⟩,
        ⟨3000000, 300, 0, 0⟩] = some m
      ∧ (∀ p ∈ [(⟨1000000, 120, 0, 0⟩ : Datapoint), ⟨2000000, 105, 0, 0⟩,
          ⟨3000000, 300, 0, 0⟩], m.vswr ≤ p.vswr)
      ∧ (∃ l₁ l₂, [(⟨1000000, 120, 0, 0⟩ : Datapoint), ⟨2000000, 105, 0, 0⟩,
            ⟨3000000, 300, 0, 0⟩] = l₁ ++ m :: l₂ ∧ ∀ p ∈ l₁, m.vswr < p.vswr)
      ∧ (∀ p ∈ [(⟨1000000, 120, 0, 0⟩ : Datapoint), ⟨2000000, 105, 0, 0⟩,
          ⟨3000000, 300, 0, 0⟩], p.vswr = m.vswr → m.freq ≤ p.freq)) :=
  ⟨by decide, c2_min_vswr ⟨1000000, 120, 0, 0⟩
    [⟨2000000, 105, 0, 0⟩, ⟨3000000, 300, 0, 0⟩] (by decide)⟩

/-! ## Claim C3 -/

/-- C3 as stated is false on the code: with the delta layout visible,
reference mode inactive and fewer than two live markers (here zero), the
claim demands a blank display with no exception, but `markerUpdated`
evaluates `self.markers[0]` before any guard and raises `IndexError`. -/
theorem c3_delta_counterexample :
    markerUpdated_delta st0 false false [] = DeltaOutcome.indexError
    ∧ markerUpdated_delta st0 false false [] ≠ DeltaOutcome.blank := by
  decide

/-- C3 amended: with the delta layout visible and at least one live
marker, delta resolution yields no result (a logged blank, no exception)
whenever reference mode is active without reference data, or reference
mode is inactive with fewer than two live markers; whenever a delta is
produced, each displayed field is operand2's field minus operand1's
field, where operand1 is the first live marker and operand2 is either the
synthetic reference marker at operand1's location or the second live
marker.  (With zero live markers the handler raises `IndexError`
instead of showing a blank.) -/
theorem c3_delta_amended (st : AppState) (marker_ref : Bool)
    (m1 : MarkerW) (rest : List MarkerW) :
    ((marker_ref = true ∧ refTruthy st = false) →
      markerUpdated_delta st false marker_ref (m1 :: rest) = DeltaOutcome.blank)
  ∧ ((marker_ref = false ∧ rest = []) →
      markerUpdated_delta st false marker_ref (m1 :: rest) = DeltaOutcome.blank)
  ∧ (∀ d, markerUpdated_delta st false marker_ref (m1 :: rest) = DeltaOutcome.delta d →
      ∃ op2 : Datapoint,
        ((marker_ref = true ∧ refTruthy st = true
            ∧ op2 = refMarkerLabels st m1.location)
          ∨ (marker_ref = false ∧ ∃ m2 rest2, rest = m2 :: rest2 ∧ op2 = m2.labels))
        ∧ d.freq = op2.freq - m1.labels.freq
        ∧ d.vswr = op2.vswr - m1.labels.vswr
        ∧ d.gain = op2.gain - m1.labels.gain
        ∧ d.phase = op2.phase - m1.labels.phase) := by
  refine ⟨?_, ?_, ?_⟩
  · rintro ⟨rfl, href⟩
    simp [markerUpdated_delta, href]
  · rintro ⟨rfl, rfl⟩
    simp [markerUpdated_delta]
  · intro d hd
    unfold markerUpdated_delta at hd
    cases marker_ref with
    | true =>
      cases href : refTruthy st with
      | false => rw [href] at hd; simp at hd
      | true =>
        rw [href] at hd
        simp only [if_true, if_false, Bool.true_eq_false] at hd
        cases hd
        refine ⟨refMarkerLabels st m1.location, Or.inl ⟨rfl, href ▸ rfl, rfl⟩, ?_, ?_, ?_, ?_⟩
          <;> rfl
    | false =>
      cases rest with
      | nil => simp at hd
      | cons m2 rest2 =>
        simp only [Bool.false_eq_true, if_false] at hd
        cases hd
        refine ⟨m2.labels, Or.inr ⟨rfl, m2, rest2, rfl, rfl⟩, ?_, ?_, ?_, ?_⟩
          <;> rfl

/-- Concrete witness for the amended C3 with one live marker and a second
live marker present. -/
theorem c3_delta_amended_witness :
    ((false = true ∧ refTruthy st0 = false) →
      markerUpdated_delta st0 false false
        [⟨0, ⟨7, 1, 2, 3⟩⟩, ⟨1, ⟨10, 4, 6, 8⟩⟩] = DeltaOutcome.blank)
  ∧ ((false = false ∧ ([(⟨1, ⟨10, 4, 6, 8⟩⟩ : MarkerW)] : List MarkerW) = []) →
      markerUpdated_delta st0 false false
        [⟨0, ⟨7, 1, 2, 3⟩⟩, ⟨1, ⟨10, 4, 6, 8⟩⟩] = DeltaOutcome.blank)
  ∧ (∀ d, markerUpdated_delta st0 false false
        [⟨0, ⟨7, 1, 2, 3⟩⟩, ⟨1, ⟨10, 4, 6, 8⟩⟩] = DeltaOutcome.delta d →
      ∃ op2 : Datapoint,
        ((false = true ∧ refTruthy st0 = true
            ∧ op2 = refMarkerLabels st0 (⟨0, ⟨7, 1, 2, 3⟩⟩ : MarkerW).location)
          ∨ (false = false ∧ ∃ m2 rest2,
              ([(⟨1, ⟨10, 4, 6, 8⟩⟩ : MarkerW)] : List MarkerW) = m2 :: rest2
                ∧ op2 = m2.labels))
        ∧ d.freq = op2.freq - (⟨0, ⟨7, 1, 2, 3⟩⟩ : MarkerW).labels.freq
        ∧ d.vswr = op2.vswr - (⟨0, ⟨7, 1, 2, 3⟩⟩ : MarkerW).labels.vswr
        ∧ d.gain = op2.gain - (⟨0, ⟨7, 1, 2, 3⟩⟩ : MarkerW).labels.gain
        ∧ d.phase = op2.phase - (⟨0, ⟨7, 1, 2, 3⟩⟩ : MarkerW).labels.phase) :=
  c3_delta_amended st0 false ⟨0, ⟨7, 1, 2, 3⟩⟩ [⟨1, ⟨10, 4, 6, 8⟩⟩]

/-! ## Helper lemmas: `saveData` leaves the reference untouched -/

theorem saveData_ref_s11 (corr : List Datapoint → List Datapoint) (attPos : Bool)
    (st : AppState) (w : WriteReq) :
    (saveData corr attPos st w).ref_s11 = st.ref_s11 := by
  unfold saveData
  cases w.source <;> rfl

theorem saveData_ref_s21 (corr : List Datapoint → List Datapoint) (attPos : Bool)
    (st : AppState) (w : WriteReq) :
    (saveData corr attPos st w).ref_s21 = st.ref_s21 := by
  unfold saveData
  cases w.source <;> rfl

theorem applyWrites_ref_s11 (corr : List Datapoint → List Datapoint) (attPos : Bool)
    (st : AppState) (ws : List WriteReq) :
    (applyWrites corr attPos st ws).ref_s11 = st.ref_s11 := by
  induction ws generalizing st with
  | nil => rfl
  | cons w ws ih =>
    unfold applyWrites at *
    rw [List.foldl_cons, ih, saveData_ref_s11]

theorem applyWrites_ref_s21 (corr : List Datapoint → List Datapoint) (attPos : Bool)
    (st : AppState) (ws : List WriteReq) :
    (applyWrites corr attPos st ws).ref_s21 = st.ref_s21 := by
  induction ws generalizing st with
  | nil => rfl
  | cons w ws ih =>
    unfold applyWrites at *
    rw [List.foldl_cons, ih, saveData_ref_s21]

/-! ## Claim C4 -/

/-- C4: `setReference()` called on the current sweep stores the buffer
contents at capture time as the reference, and the stored reference is
unchanged by any sequence of later `saveData` calls. -/
theorem c4_reference_capture (corr : List Datapoint → List Datapoint)
    (attPos : Bool) (st : AppState) (ws : List WriteReq) :
    (setReference st none none none).ref_s11 = st.data_s11
  ∧ (setReference st none none none).ref_s21 = some st.data_s21
  ∧ (applyWrites corr attPos (setReference st none none none) ws).ref_s11
      = st.data_s11
  ∧ (applyWrites corr attPos (setReference st none none none) ws).ref_s21
      = some st.data_s21 := by
  refine ⟨rfl, rfl, ?_, ?_⟩
  · rw [applyWrites_ref_s11]
    rfl
  · rw [applyWrites_ref_s21]
    rfl

/-! ## Claim C5 -/

/-- C5: calling `resetReference()` twice in a row leaves exactly the same
state (empty reference data, empty reference source label, same recomputed
title, cleared chart overlays, reset affordance disabled) as calling it
once. -/
theorem c5_resetReference_idempotent (st : AppState) :
    resetReference (resetReference st) = resetReference st := rfl

/-! ## Claim C7 -/

/-- C7: when `saveData` is called without an explicit source label, the
synthesized sweep-source label is the configured name joined with the
local timestamp by an underscore; the name falls back to `"nanovna"` when
the sweep properties name is unset (Python falsy). -/
theorem c7_sweep_source_label (corr : List Datapoint → List Datapoint)
    (attPos : Bool) (st : AppState) (data data21 : List Datapoint)
    (now sweepName : String) :
    (saveData corr attPos st ⟨data, data21, none, now, sweepName⟩).sweepSource
      = (if sweepName = "" then "nanovna" else sweepName) ++ "_" ++ now := rfl

/-! ## Claim C9 -/

/-- C9: `setReference` with a falsy `s11` (omitted or an explicit empty
sequence) snapshots both S11 and S21 from the live buffer, discarding any
explicitly passed `s21`; with a non-empty `s11` and no `s21`, the stored
S21 reference is Python `None`, not an empty sequence. -/
theorem c9_setReference_falsy (st : AppState) (s21a : Option (List Datapoint))
    (src : Option String) (l : List Datapoint) (h : l ≠ []) :
    ((setReference st none s21a src).ref_s11 = st.data_s11
      ∧ (setReference st none s21a src).ref_s21 = some st.data_s21)
  ∧ ((setReference st (some []) s21a src).ref_s11 = st.data_s11
      ∧ (setReference st (some []) s21a src).ref_s21 = some st.data_s21)
  ∧ ((setReference st (some l) none src).ref_s11 = l
      ∧ (setReference st (some l) none src).ref_s21 = none) := by
  refine ⟨⟨rfl, rfl⟩, ⟨rfl, rfl⟩, ?_⟩
  cases l with
  | nil => exact absurd rfl h
  | cons a t => exact ⟨rfl, rfl⟩

/-- Concrete witness for C9 on a one-point sweep state. -/
theorem c9_setReference_falsy_witness :
    ([(⟨1, 2, 3, 4⟩ : Datapoint)] ≠ [])
  ∧ (((setReference stEx none (some []) none).ref_s11 = stEx.data_s11
      ∧ (setReference stEx none (some []) none).ref_s21 = some stEx.data_s21)
    ∧ ((setReference stEx (some []) (some []) none).ref_s11 = stEx.data_s11
      ∧ (setReference stEx (some []) (some []) none).ref_s21 = some stEx.data_s21)
    ∧ ((setReference stEx (some [⟨1, 2, 3, 4⟩]) none none).ref_s11 = [⟨1, 2, 3, 4⟩]
      ∧ (setReference stEx (some [⟨1, 2, 3, 4⟩]) none none).ref_s21 = none)) :=
  ⟨by decide, c9_setReference_falsy stEx (some []) none [⟨1, 2, 3, 4⟩] (by decide)⟩

/-! ## Claim C8 -/

/-- C8 as stated is false on the code: `markerUpdated` runs the whole
chart-update fan-out (and the marker's own label updates) inside
`with self.dataLock:` (lines 529-534), so a chart consumer update
executes while the data lock is held. -/
theorem c8_lock_counterexample :
    (Act.chartOp, true) ∈ markerUpdated_trace 1
    ∧ Act.isConsumerOp Act.chartOp = true := by
  decide

/-- C8 amended: in `saveData`, `dataUpdated` and `setReference` the data
lock is held only for the buffer replace or copy — every step executed
with the lock held is a buffer access, and no chart or marker consumer
update runs under the lock; `markerUpdated`, however, holds the lock
across its marker label updates and across the chart-update fan-out. -/
theorem c8_lock_amended (nMarkers nS11 nS21 nComb nCharts : Nat) (falsy : Bool) :
    (∀ ab ∈ saveData_trace, ab.2 = true → ab.1 = Act.bufferWrite)
  ∧ (∀ ab ∈ dataUpdated_trace nMarkers nS11 nS21 nComb,
      ab.2 = true → ab.1 = Act.bufferRead)
  ∧ (∀ ab ∈ setReference_trace falsy nS11 nS21 nComb,
      ab.2 = true → ab.1 = Act.bufferRead)
  ∧ (∀ ab ∈ saveData_trace ++ dataUpdated_trace nMarkers nS11 nS21 nComb
        ++ setReference_trace falsy nS11 nS21 nComb,
      ab.1.isConsumerOp = true → ab.2 = false)
  ∧ (Act.markerOp, true) ∈ markerUpdated_trace nCharts
  ∧ (Act.chartOp, true) ∈ markerUpdated_trace (nCharts + 1) := by
  have hsave : ∀ ab ∈ saveData_trace, ab.2 = true → ab.1 = Act.bufferWrite := by
    intro ab hab
    rcases List.mem_cons.mp hab with rfl | hab
    · intro; rfl
    · rcases List.mem_cons.mp hab with rfl | hab
      · intro h; cases h
      · cases hab
  have hdata : ∀ ab ∈ dataUpdated_trace nMarkers nS11 nS21 nComb,
      ab.2 = true → ab.1 = Act.bufferRead := by
    intro ab hab
    rcases List.mem_cons.mp hab with rfl | hab
    · intro; rfl
    · simp only [List.mem_append, List.mem_replicate, List.mem_cons,
        List.not_mem_nil, or_false] at hab
      rcases hab with ((((⟨_, rfl⟩ | ⟨_, rfl⟩) | ⟨_, rfl⟩) | ⟨_, rfl⟩)
          | rfl | rfl | rfl | rfl)
        <;> intro h <;> cases h
  have hset : ∀ ab ∈ setReference_trace falsy nS11 nS21 nComb,
      ab.2 = true → ab.1 = Act.bufferRead := by
    intro ab hab
    unfold setReference_trace at hab
    simp only [List.mem_append, List.mem_replicate, List.mem_cons,
      List.not_mem_nil, or_false] at hab
    rcases hab with ((((hif | ⟨_, rfl⟩) | ⟨_, rfl⟩) | ⟨_, rfl⟩) | rfl | rfl)
    · cases falsy with
      | true =>
        simp only [if_true, List.mem_cons, List.not_mem_nil, or_false] at hif
        rw [hif]
        intro
        rfl
      | false => simp at hif
    all_goals intro h; cases h
  refine ⟨hsave, hdata, hset, ?_, ?_, ?_⟩
  · intro ab hab hcons
    rcases List.mem_append.mp hab with hab | hab3
    · rcases List.mem_append.mp hab with hab1 | hab2
      · have := hsave ab hab1
        cases hb : ab.2 with
        | false => rfl
        | true => rw [this hb] at hcons; cases hcons
      · have := hdata ab hab2
        cases hb : ab.2 with
        | false => rfl
        | true => rw [this hb] at hcons; cases hcons
    · have := hset ab hab3
      cases hb : ab.2 with
      | false => rfl
      | true => rw [this hb] at hcons; cases hcons
  · unfold markerUpdated_trace
    exact List.mem_cons_self _ _
  · unfold markerUpdated_trace
    refine List.mem_append_left _ ?_
    refine List.mem_append_right _ ?_
    exact List.mem_replicate.mpr ⟨Nat.succ_ne_zero nCharts, rfl⟩

/-- Concrete witness for the amended C8 with one marker and one chart of
each kind, taking the buffer-snapshot branch of `setReference`. -/
theorem c8_lock_amended_witness :
    (∀ ab ∈ saveData_trace, ab.2 = true → ab.1 = Act.bufferWrite)
  ∧ (∀ ab ∈ dataUpdated_trace 1 1 1 1, ab.2 = true → ab.1 = Act.bufferRead)
  ∧ (∀ ab ∈ setReference_trace true 1 1 1, ab.2 = true → ab.1 = Act.bufferRead)
  ∧ (∀ ab ∈ saveData_trace ++ dataUpdated_trace 1 1 1 1
        ++ setReference_trace true 1 1 1,
      ab.1.isConsumerOp = true → ab.2 = false)
  ∧ (Act.markerOp, true) ∈ markerUpdated_trace 1
  ∧ (Act.chartOp, true) ∈ markerUpdated_trace (1 + 1) :=
  c8_lock_amended 1 1 1 1 1 true

/-! ## Helper lemmas: space insertion and normalisation -/

theorem spacedVersionB_removeSpaces : ∀ (l l' : List Char),
    spacedVersionB l l' = true → removeSpaces l' = removeSpaces l := by
  intro l l'
  induction l' generalizing l with
  | nil =>
    cases l with
    | nil => intro; rfl
    | cons c t =>
      intro h
      exact absurd h (by simp [spacedVersionB])
  | cons c l' ih =>
    intro h
    cases l with
    | nil =>
      rw [show spacedVersionB [] (c :: l')
          = (false || (c == ' ' && spacedVersionB [] l')) from rfl,
        Bool.false_or, Bool.and_eq_true, beq_iff_eq] at h
      obtain ⟨rfl, hrest⟩ := h
      unfold removeSpaces at *
      rw [List.filter_cons]
      simp only [bne_self_eq_false, Bool.false_eq_true, if_false]
      exact ih [] hrest
    | cons c' t =>
      rw [show spacedVersionB (c' :: t) (c :: l')
          = ((c' == c && spacedVersionB t l')
            || (c == ' ' && spacedVersionB (c' :: t) l')) from rfl,
        Bool.or_eq_true] at h
      rcases h with h | h
      · rw [Bool.and_eq_true, beq_iff_eq] at h
        obtain ⟨rfl, hrest⟩ := h
        unfold removeSpaces at *
        rw [List.filter_cons, List.filter_cons, ih t hrest]
      · rw [Bool.and_eq_true, beq_iff_eq] at h
        obtain ⟨rfl, hrest⟩ := h
        unfold removeSpaces at *
        rw [List.filter_cons]
        simp only [bne_self_eq_false, Bool.false_eq_true, if_false]
        exact ih (c' :: t) hrest

theorem removeSpaces_dropWhile (l : List Char) :
    removeSpaces (l.dropWhile isPySpace) = (removeSpaces l).dropWhile isPySpace := by
  induction l with
  | nil => rfl
  | cons c t ih =>
    by_cases hc : c = ' '
    · subst hc
      rw [show List.dropWhile isPySpace (' ' :: t) = List.dropWhile isPySpace t
          from rfl]
      rw [ih]
      unfold removeSpaces
      rw [List.filter_cons]
      simp
    · by_cases hw : isPySpace c = true
      · rw [List.dropWhile_cons_of_pos hw, ih]
        unfold removeSpaces
        rw [List.filter_cons]
        have hne : (c != ' ') = true := by
          simp [bne_iff_ne, hc]
        rw [if_pos (by simp [hne])]
        rw [List.dropWhile_cons_of_pos hw]
      · rw [List.dropWhile_cons_of_neg hw]
        unfold removeSpaces
        rw [List.filter_cons]
        have hne : (c != ' ') = true := by
          simp [bne_iff_ne, hc]
        rw [if_pos hne]
        rw [List.dropWhile_cons_of_neg hw]

theorem removeSpaces_reverse (l : List Char) :
    removeSpaces l.reverse = (removeSpaces l).reverse :=
  List.filter_reverse _ l

theorem removeSpaces_pyStrip (l : List Char) :
    removeSpaces (pyStrip l) = pyStrip (removeSpaces l) := by
  unfold pyStrip
  rw [removeSpaces_reverse, removeSpaces_dropWhile, removeSpaces_reverse,
    removeSpaces_dropWhile]

theorem normalizeCfg_spaced (l l' : List Char)
    (hs : spacedVersionB l l' = true) : normalizeCfg l' = normalizeCfg l := by
  unfold normalizeCfg
  rw [removeSpaces_pyStrip, removeSpaces_pyStrip,
    spacedVersionB_removeSpaces l l' hs]

/-! ## Claim C10 -/

/-- C10: the parser strips and removes spaces before matching, so
inserting arbitrary space characters anywhere into a configuration string
that parses successfully yields a string that parses to the same four
byte values. -/
theorem c10_space_insensitive (l l' : List Char) (bytes : List Nat)
    (hp : parse_four_inputs l = ParseOutcome.ret bytes)
    (hs : spacedVersionB l l' = true) :
    parse_four_inputs l' = ParseOutcome.ret bytes := by
  unfold parse_four_inputs at *
  rw [normalizeCfg_spaced l l' hs]
  exact hp

/-- Concrete witness for C10: spaces inserted inside a group, between
groups, and at both ends. -/
theorem c10_space_insensitive_witness :
    parse_four_inputs ("[0101][1100][0011][1010]".data)
      = ParseOutcome.ret [0x5A, 0xC3, 0x3C, 0xA5]
  ∧ spacedVersionB ("[0101][1100][0011][1010]".data)
      (" [01 01] [1100] [0011] [1010] ".data) = true
  ∧ parse_four_inputs (" [01 01] [1100] [0011] [1010] ".data)
      = ParseOutcome.ret [0x5A, 0xC3, 0x3C, 0xA5] :=
  ⟨by decide, by decide,
    c10_space_insensitive ("[0101][1100][0011][1010]".data)
      (" [01 01] [1100] [0011] [1010] ".data) [0x5A, 0xC3, 0x3C, 0xA5]
      (by decide) (by decide)⟩
